import Mathlib

/-!
# Verification of the MissionSpec builder (Malmo `MissionSpec.h`)

A shallow embedding of the mission-specification document builder declared in
`src/Malmo/src/MissionSpec.h`.  The repository ships only the header (the
declarations and their doc comments); the method bodies live in a `.cpp`
file that is not part of the source tree here, so every operation below is
modelled from the specification's description of the document model and the
editing operations, staying faithful to its words.

The development covers:
* the document data model (server section, agent sections, command handlers);
* the mutator API (world edits, agent start/end, video, observations,
  the command-handler allow/deny state machine);
* the role-indexed information accessors and their error behaviour;
* an XML-tree serialization with a parser, for the round-trip contract.
-/

namespace Malmo

/-- A 3-D integer position `(x, y, z)`. -/
structure Pos where
  x : Int
  y : Int
  z : Int
  deriving DecidableEq, Repr

/-- Modelled from the spec: world generation mode — flat world (the default)
or Minecraft's terrain generator (`createDefaultTerrain`). -/
inductive WorldGenerator where
  | flatWorld
  | defaultWorld
  deriving DecidableEq, Repr

/-- Modelled from the spec: the time-of-day setting stored by `setTimeOfDay` —
the tick value is stored verbatim together with the allow-time-to-pass flag. -/
structure TimeOfDaySetting where
  startTime : Int
  allowPassage : Bool
  deriving DecidableEq, Repr

/-- Modelled from the spec: one world-edit directive, appended by the
`drawBlock` / `drawCuboid` / `drawItem` / `drawSphere` / `drawLine` mutators. -/
inductive DrawDirective where
  | drawBlock (x y z : Int) (blockType : String)
  | drawCuboid (x1 y1 z1 x2 y2 z2 : Int) (blockType : String)
  | drawItem (x y z : Int) (itemType : String)
  | drawSphere (x y z radius : Int) (blockType : String)
  | drawLine (x1 y1 z1 x2 y2 z2 : Int) (blockType : String)
  deriving DecidableEq, Repr

/-- Modelled from the spec: the server section — world generation mode,
optional time-of-day setting, the ordered sequence of world-edit directives,
and the optional time limit (seconds, stored verbatim; the C++ declaration
takes a `float`, modelled as `Rat`). -/
structure ServerSection where
  worldGenerator : WorldGenerator
  timeOfDay : Option TimeOfDaySetting
  drawingDecorators : List DrawDirective
  timeLimitSeconds : Option Rat
  deriving DecidableEq, Repr

/-- Modelled from the spec: the player mode of an agent. -/
inductive GameMode where
  | survival
  | creative
  | spectator
  deriving DecidableEq, Repr

/-- Modelled from the spec: the optional video producer of an agent —
width, height, and whether depth was requested.  The channel count is never
stored: it is derived (4 when depth is requested, else 3). -/
structure VideoProducer where
  width : Int
  height : Int
  wantDepth : Bool
  deriving DecidableEq, Repr

/-- Modelled from the spec: one reward-producer entry appended by
`rewardForReachingPosition` (amount and tolerance are `float` in the C++
declaration, modelled as `Rat`). -/
structure RewardForReachingPosition where
  pos : Pos
  amount : Rat
  tolerance : Rat
  deriving DecidableEq, Repr

/-- Modelled from the spec: one observation request, appended by the
`observe*` mutators. -/
inductive ObservationRequest where
  | recentCommands
  | hotBar
  | fullInventory
  | grid (x1 y1 z1 x2 y2 z2 : Int) (label : String)
  | distance (p : Pos) (label : String)
  | chat
  deriving DecidableEq, Repr

/-- Modelled from the spec: a command-handler category record — an optional
allow-list and an optional deny-list of verb strings.  The mutual-exclusion
invariant (never both populated) is maintained by the operations, not by the
type. -/
structure ModifierList where
  allowList : Option (List String)
  denyList : Option (List String)
  deriving DecidableEq, Repr

/-- Modelled from the spec: the per-agent set of command-handler category
records; `none` means the category is not configured (absent). -/
structure CommandHandlers where
  continuousMovement : Option ModifierList
  discreteMovement : Option ModifierList
  absoluteMovement : Option ModifierList
  inventory : Option ModifierList
  chat : Option ModifierList
  deriving DecidableEq, Repr

/-- Modelled from the spec: one per-agent configuration entry (a "role"). -/
structure AgentSection where
  mode : GameMode
  startPosition : Option Pos
  endPositions : List Pos
  videoProducer : Option VideoProducer
  rewardProducers : List RewardForReachingPosition
  observationRequests : List ObservationRequest
  commandHandlers : CommandHandlers
  deriving DecidableEq, Repr

/-- The mission-specification document: an about string, the server section,
and the ordered sequence of agent sections (index = role). -/
structure MissionSpec where
  about : String
  server : ServerSection
  agentSections : List AgentSection
  deriving DecidableEq, Repr

/-- A command-handler category record with neither list configured. -/
def ModifierList.empty : ModifierList := ⟨none, none⟩

/-- Command handlers with every category absent (not configured). -/
def CommandHandlers.empty : CommandHandlers := ⟨none, none, none, none, none⟩

/-- Modelled from the spec: a fresh agent section — survival mode, no start or
end positions, no video, no rewards, no observations, no command handlers. -/
def AgentSection.default : AgentSection :=
  { mode := .survival
    startPosition := none
    endPositions := []
    videoProducer := none
    rewardProducers := []
    observationRequests := []
    commandHandlers := CommandHandlers.empty }

/-- Modelled from the spec: the default constructor `MissionSpec()` — a flat
world with a 10-second time limit and exactly one agent in survival mode. -/
def MissionSpec.default : MissionSpec :=
  { about := ""
    server :=
      { worldGenerator := .flatWorld
        timeOfDay := none
        drawingDecorators := []
        timeLimitSeconds := some 10 }
    agentSections := [AgentSection.default] }

/-! ## Mutators: server settings -/

/-- Modelled from the spec: `timeLimitInSeconds(s)` sets/replaces the mission
time-limit directive; no bound on `s` is enforced, the value passes through
unmodified. -/
def MissionSpec.timeLimitInSeconds (m : MissionSpec) (s : Rat) : MissionSpec :=
  { m with server := { m.server with timeLimitSeconds := some s } }

/-- Modelled from the spec: `createDefaultTerrain()` switches the world
generation mode to Minecraft's terrain generator. -/
def MissionSpec.createDefaultTerrain (m : MissionSpec) : MissionSpec :=
  { m with server := { m.server with worldGenerator := .defaultWorld } }

/-- Modelled from the spec: `setTimeOfDay(t, allowTimeToPass)` stores `t`
verbatim (no range clamp to `[0, 24000)`) together with the flag. -/
def MissionSpec.setTimeOfDay (m : MissionSpec) (t : Int) (allowTimeToPass : Bool) :
    MissionSpec :=
  { m with server := { m.server with timeOfDay := some ⟨t, allowTimeToPass⟩ } }

/-- Append a world-edit directive to the server section (call order kept). -/
def MissionSpec.appendDraw (m : MissionSpec) (d : DrawDirective) : MissionSpec :=
  { m with server :=
      { m.server with drawingDecorators := m.server.drawingDecorators ++ [d] } }

/-- Modelled from the spec: `drawBlock` appends one block directive. -/
def MissionSpec.drawBlock (m : MissionSpec) (x y z : Int) (blockType : String) :
    MissionSpec :=
  m.appendDraw (.drawBlock x y z blockType)

/-- Modelled from the spec: `drawCuboid` appends one cuboid directive. -/
def MissionSpec.drawCuboid (m : MissionSpec) (x1 y1 z1 x2 y2 z2 : Int)
    (blockType : String) : MissionSpec :=
  m.appendDraw (.drawCuboid x1 y1 z1 x2 y2 z2 blockType)

/-- Modelled from the spec: `drawItem` appends one item directive. -/
def MissionSpec.drawItem (m : MissionSpec) (x y z : Int) (itemType : String) :
    MissionSpec :=
  m.appendDraw (.drawItem x y z itemType)

/-- Modelled from the spec: `drawSphere` appends one sphere directive. -/
def MissionSpec.drawSphere (m : MissionSpec) (x y z radius : Int)
    (blockType : String) : MissionSpec :=
  m.appendDraw (.drawSphere x y z radius blockType)

/-- Modelled from the spec: `drawLine` appends one line directive. -/
def MissionSpec.drawLine (m : MissionSpec) (x1 y1 z1 x2 y2 z2 : Int)
    (blockType : String) : MissionSpec :=
  m.appendDraw (.drawLine x1 y1 z1 x2 y2 z2 blockType)

/-! ## Mutators: agent settings (all act on `agentSections[0]` only) -/

/-- Apply `f` to the first agent section, leaving everything else unchanged.
Modelled from the spec: every agent mutator acts on `agentSections[0]` only. -/
def MissionSpec.updateAgent0 (m : MissionSpec) (f : AgentSection → AgentSection) :
    MissionSpec :=
  match m.agentSections with
  | [] => m
  | a :: rest => { m with agentSections := f a :: rest }

/-- Modelled from the spec: `startAt` overwrites any previous start position. -/
def MissionSpec.startAt (m : MissionSpec) (x y z : Int) : MissionSpec :=
  m.updateAgent0 fun a => { a with startPosition := some ⟨x, y, z⟩ }

/-- Modelled from the spec: `endAt` appends one end position (no
de-duplication, call order preserved). -/
def MissionSpec.endAt (m : MissionSpec) (x y z : Int) : MissionSpec :=
  m.updateAgent0 fun a => { a with endPositions := a.endPositions ++ [⟨x, y, z⟩] }

/-- Modelled from the spec: `setModeToCreative` sets the agent's mode. -/
def MissionSpec.setModeToCreative (m : MissionSpec) : MissionSpec :=
  m.updateAgent0 fun a => { a with mode := .creative }

/-- Modelled from the spec: `setModeToSpectator` sets the agent's mode. -/
def MissionSpec.setModeToSpectator (m : MissionSpec) : MissionSpec :=
  m.updateAgent0 fun a => { a with mode := .spectator }

/-- Modelled from the spec: `requestVideo(width, height)` sets the video
producer to the given size, overwriting prior settings; the depth flag is
untouched by this call (it stays at its prior value, or `false` when no video
was configured before). -/
def MissionSpec.requestVideo (m : MissionSpec) (width height : Int) : MissionSpec :=
  m.updateAgent0 fun a =>
    let depth := (a.videoProducer.map VideoProducer.wantDepth).getD false
    { a with videoProducer := some ⟨width, height, depth⟩ }

/-- Modelled from the spec: `rewardForReachingPosition` appends one
reward-producer entry. -/
def MissionSpec.rewardForReachingPosition (m : MissionSpec) (x y z : Int)
    (amount tolerance : Rat) : MissionSpec :=
  m.updateAgent0 fun a =>
    { a with rewardProducers := a.rewardProducers ++ [⟨⟨x, y, z⟩, amount, tolerance⟩] }

/-- Append one observation request to the first agent. -/
def MissionSpec.appendObservation (m : MissionSpec) (o : ObservationRequest) :
    MissionSpec :=
  m.updateAgent0 fun a =>
    { a with observationRequests := a.observationRequests ++ [o] }

/-- Modelled from the spec: `observeRecentCommands` appends one request. -/
def MissionSpec.observeRecentCommands (m : MissionSpec) : MissionSpec :=
  m.appendObservation .recentCommands

/-- Modelled from the spec: `observeHotBar` appends one request. -/
def MissionSpec.observeHotBar (m : MissionSpec) : MissionSpec :=
  m.appendObservation .hotBar

/-- Modelled from the spec: `observeFullInventory` appends one request. -/
def MissionSpec.observeFullInventory (m : MissionSpec) : MissionSpec :=
  m.appendObservation .fullInventory

/-- Modelled from the spec: `observeGrid` appends one request. -/
def MissionSpec.observeGrid (m : MissionSpec) (x1 y1 z1 x2 y2 z2 : Int)
    (label : String) : MissionSpec :=
  m.appendObservation (.grid x1 y1 z1 x2 y2 z2 label)

/-- Modelled from the spec: `observeDistance` appends one request. -/
def MissionSpec.observeDistance (m : MissionSpec) (x y z : Int) (label : String) :
    MissionSpec :=
  m.appendObservation (.distance ⟨x, y, z⟩ label)

/-- Modelled from the spec: `observeChat` appends one request. -/
def MissionSpec.observeChat (m : MissionSpec) : MissionSpec :=
  m.appendObservation .chat

/-! ## Mutators: command handlers -/

/-- Modelled from the spec: the shared transition `putVerbOnList`, the single
enforcement point of the allow/deny mutual-exclusion invariant.  Steps:
1. if the category record is absent, create it;
2. drop the deny-list entirely, regardless of prior state;
3. append `verb` to the allow-list if not already present (set semantics,
   insertion order preserved). -/
def putVerbOnList (mlo : Option ModifierList) (verb : String) : Option ModifierList :=
  let ml := mlo.getD ModifierList.empty
  let allow := ml.allowList.getD []
  some ⟨some (if verb ∈ allow then allow else allow ++ [verb]), none⟩

/-- Modelled from the spec: `removeAllCommandHandlers` resets every category of
the first agent to absent. -/
def MissionSpec.removeAllCommandHandlers (m : MissionSpec) : MissionSpec :=
  m.updateAgent0 fun a => { a with commandHandlers := CommandHandlers.empty }

/-- Modelled from the spec: `allowAllContinuousMovementCommands` leaves the
category in the no-restriction state — handler present, neither an allow-list
nor a deny-list — creating it if absent and clearing whichever list was
populated. -/
def MissionSpec.allowAllContinuousMovementCommands (m : MissionSpec) : MissionSpec :=
  m.updateAgent0 fun a =>
    { a with commandHandlers :=
        { a.commandHandlers with continuousMovement := some ModifierList.empty } }

/-- Modelled from the spec: `allowContinuousMovementCommand(verb)` — creates
the category record if absent, removes the deny-list if present, and adds
`verb` to the allow-list if not already present; the source implements this by
calling the shared helper `putVerbOnList` on the category's record. -/
def MissionSpec.allowContinuousMovementCommand (m : MissionSpec) (verb : String) :
    MissionSpec :=
  m.updateAgent0 fun a =>
    let ch := a.commandHandlers
    { a with commandHandlers :=
        { ch with continuousMovement := putVerbOnList ch.continuousMovement verb } }

/-- Modelled from the spec: `allowAllDiscreteMovementCommands`. -/
def MissionSpec.allowAllDiscreteMovementCommands (m : MissionSpec) : MissionSpec :=
  m.updateAgent0 fun a =>
    { a with commandHandlers :=
        { a.commandHandlers with discreteMovement := some ModifierList.empty } }

/-- Modelled from the spec: `allowDiscreteMovementCommand(verb)` — same
transition as the continuous-movement form, on the discrete category. -/
def MissionSpec.allowDiscreteMovementCommand (m : MissionSpec) (verb : String) :
    MissionSpec :=
  m.updateAgent0 fun a =>
    let ch := a.commandHandlers
    { a with commandHandlers :=
        { ch with discreteMovement := putVerbOnList ch.discreteMovement verb } }

/-- Modelled from the spec: `allowAllAbsoluteMovementCommands`. -/
def MissionSpec.allowAllAbsoluteMovementCommands (m : MissionSpec) : MissionSpec :=
  m.updateAgent0 fun a =>
    { a with commandHandlers :=
        { a.commandHandlers with absoluteMovement := some ModifierList.empty } }

/-- Modelled from the spec: `allowAbsoluteMovementCommand(verb)`. -/
def MissionSpec.allowAbsoluteMovementCommand (m : MissionSpec) (verb : String) :
    MissionSpec :=
  m.updateAgent0 fun a =>
    let ch := a.commandHandlers
    { a with commandHandlers :=
        { ch with absoluteMovement := putVerbOnList ch.absoluteMovement verb } }

/-- Modelled from the spec: `allowAllInventoryCommands`. -/
def MissionSpec.allowAllInventoryCommands (m : MissionSpec) : MissionSpec :=
  m.updateAgent0 fun a =>
    { a with commandHandlers :=
        { a.commandHandlers with inventory := some ModifierList.empty } }

/-- Modelled from the spec: `allowInventoryCommand(verb)`. -/
def MissionSpec.allowInventoryCommand (m : MissionSpec) (verb : String) :
    MissionSpec :=
  m.updateAgent0 fun a =>
    let ch := a.commandHandlers
    { a with commandHandlers :=
        { ch with inventory := putVerbOnList ch.inventory verb } }

/-- Modelled from the spec: `allowAllChatCommands` (chat only exposes the
allow-all form: chat has no verb grammar). -/
def MissionSpec.allowAllChatCommands (m : MissionSpec) : MissionSpec :=
  m.updateAgent0 fun a =>
    { a with commandHandlers :=
        { a.commandHandlers with chat := some ModifierList.empty } }

/-! ## Information accessors -/

/-- Modelled from the spec: the error kinds of the information accessors. -/
inductive MissionSpecError where
  | indexOutOfRange
  | notConfigured
  deriving DecidableEq, Repr

/-- Modelled from the spec: `getNumberOfAgents` returns the length of
`agentSections`. -/
def MissionSpec.getNumberOfAgents (m : MissionSpec) : Int :=
  (m.agentSections.length : Int)

/-- Look up the agent section for `role`; fails with `IndexOutOfRange` when
`role` violates `0 ≤ role < getNumberOfAgents()`. -/
def MissionSpec.getAgent (m : MissionSpec) (role : Int) :
    Except MissionSpecError AgentSection :=
  if h : 0 ≤ role ∧ role < (m.agentSections.length : Int) then
    .ok (m.agentSections.get ⟨role.toNat, by omega⟩)
  else
    .error .indexOutOfRange

/-- Modelled from the spec: `isVideoRequested(role)`. -/
def MissionSpec.isVideoRequested (m : MissionSpec) (role : Int) :
    Except MissionSpecError Bool :=
  (m.getAgent role).map fun a => a.videoProducer.isSome

/-- Modelled from the spec: `getVideoWidth(role)`; fails with `NotConfigured`
when no video was requested for that role. -/
def MissionSpec.getVideoWidth (m : MissionSpec) (role : Int) :
    Except MissionSpecError Int :=
  (m.getAgent role).bind fun a =>
    match a.videoProducer with
    | some v => .ok v.width
    | none => .error .notConfigured

/-- Modelled from the spec: `getVideoHeight(role)`. -/
def MissionSpec.getVideoHeight (m : MissionSpec) (role : Int) :
    Except MissionSpecError Int :=
  (m.getAgent role).bind fun a =>
    match a.videoProducer with
    | some v => .ok v.height
    | none => .error .notConfigured

/-- Modelled from the spec: `getVideoChannels(role)` — the channel count is a
pure function of whether depth was requested: 4 for RGBD, 3 for RGB. -/
def MissionSpec.getVideoChannels (m : MissionSpec) (role : Int) :
    Except MissionSpecError Int :=
  (m.getAgent role).bind fun a =>
    match a.videoProducer with
    | some v => .ok (if v.wantDepth then 4 else 3)
    | none => .error .notConfigured

/-! ## Command-handler categories, agent-0 views, and the invariant -/

/-- The five command-handler categories of the builder API. -/
inductive Category where
  | continuousMovement
  | discreteMovement
  | absoluteMovement
  | inventory
  | chat
  deriving DecidableEq, Repr

/-- Read one category record out of a `CommandHandlers` value. -/
def CommandHandlers.category (ch : CommandHandlers) : Category → Option ModifierList
  | .continuousMovement => ch.continuousMovement
  | .discreteMovement => ch.discreteMovement
  | .absoluteMovement => ch.absoluteMovement
  | .inventory => ch.inventory
  | .chat => ch.chat

/-- Replace one category record in a `CommandHandlers` value. -/
def CommandHandlers.setCategory (ch : CommandHandlers) :
    Category → Option ModifierList → CommandHandlers
  | .continuousMovement, r => { ch with continuousMovement := r }
  | .discreteMovement, r => { ch with discreteMovement := r }
  | .absoluteMovement, r => { ch with absoluteMovement := r }
  | .inventory, r => { ch with inventory := r }
  | .chat, r => { ch with chat := r }

/-- The first agent section (role 0); a fresh agent section if the document
has no agents (unreachable through the builder API, which always starts from
a one-agent document). -/
def MissionSpec.agent0 (m : MissionSpec) : AgentSection :=
  m.agentSections.headD AgentSection.default

/-- The command handlers of agent 0. -/
def MissionSpec.agent0Handlers (m : MissionSpec) : CommandHandlers :=
  m.agent0.commandHandlers

/-- The generic per-verb allow operation: apply `putVerbOnList` to the given
category record of agent 0.  The four `allowXCommand` mutators are each an
instance of this at their category. -/
def MissionSpec.allowCommandInCategory (m : MissionSpec) (c : Category)
    (verb : String) : MissionSpec :=
  m.updateAgent0 fun a =>
    let ch := a.commandHandlers
    { a with commandHandlers := ch.setCategory c (putVerbOnList (ch.category c) verb) }

/-- One call of the command-handler API considered by the state-machine
invariant: the five allow-all forms, the four per-verb allow forms, and the
reset. -/
inductive HandlerOp where
  | allowAllContinuous
  | allowAllDiscrete
  | allowAllAbsolute
  | allowAllInventory
  | allowAllChat
  | allowContinuous (verb : String)
  | allowDiscrete (verb : String)
  | allowAbsolute (verb : String)
  | allowInventory (verb : String)
  | removeAll
  deriving DecidableEq, Repr

/-- Dispatch one command-handler API call to its mutator. -/
def MissionSpec.applyHandlerOp (m : MissionSpec) : HandlerOp → MissionSpec
  | .allowAllContinuous => m.allowAllContinuousMovementCommands
  | .allowAllDiscrete => m.allowAllDiscreteMovementCommands
  | .allowAllAbsolute => m.allowAllAbsoluteMovementCommands
  | .allowAllInventory => m.allowAllInventoryCommands
  | .allowAllChat => m.allowAllChatCommands
  | .allowContinuous verb => m.allowContinuousMovementCommand verb
  | .allowDiscrete verb => m.allowDiscreteMovementCommand verb
  | .allowAbsolute verb => m.allowAbsoluteMovementCommand verb
  | .allowInventory verb => m.allowInventoryCommand verb
  | .removeAll => m.removeAllCommandHandlers

/-- Apply a finite sequence of command-handler API calls in order. -/
def MissionSpec.applyHandlerOps (m : MissionSpec) (ops : List HandlerOp) :
    MissionSpec :=
  ops.foldl MissionSpec.applyHandlerOp m

/-- The three category states named by the specification: absent, allow-list
only (with distinct verbs), deny-list only. -/
def categoryStateClaimed (r : Option ModifierList) : Prop :=
  r = none
  ∨ (∃ l, r = some ⟨some l, none⟩ ∧ l.Nodup)
  ∨ (∃ l, r = some ⟨none, some l⟩)

/-- The category states actually reachable: the specification's three states
together with the no-restriction state (record present, neither list
configured) produced by the allow-all operations. -/
def categoryStateOK (r : Option ModifierList) : Prop :=
  r = none
  ∨ r = some ModifierList.empty
  ∨ (∃ l, r = some ⟨some l, none⟩ ∧ l.Nodup)
  ∨ (∃ l, r = some ⟨none, some l⟩)

/-- The allow-list and deny-list of a category record are never both
populated. -/
def listsExclusive (r : Option ModifierList) : Prop :=
  ∀ ml, r = some ml → ml.allowList = none ∨ ml.denyList = none

/-- The state invariant maintained on agent 0 by the command-handler API. -/
def MissionSpec.handlersOK (m : MissionSpec) : Prop :=
  ∀ c : Category, categoryStateOK (m.agent0Handlers.category c)

/-! ## Invariant lemmas -/

theorem putVerbOnList_stateOK (r : Option ModifierList) (v : String)
    (h : categoryStateOK r) : categoryStateOK (putVerbOnList r v) := by
  rcases h with h | h | ⟨l, hl, hnd⟩ | ⟨l, hl⟩
  · subst h
    refine Or.inr (Or.inr (Or.inl ⟨[v], ?_, List.nodup_singleton v⟩))
    simp [putVerbOnList, ModifierList.empty]
  · subst h
    refine Or.inr (Or.inr (Or.inl ⟨[v], ?_, List.nodup_singleton v⟩))
    simp [putVerbOnList, ModifierList.empty]
  · subst hl
    by_cases hv : v ∈ l
    · exact Or.inr (Or.inr (Or.inl ⟨l, by simp [putVerbOnList, hv], hnd⟩))
    · refine Or.inr (Or.inr (Or.inl ⟨l ++ [v], by simp [putVerbOnList, hv], ?_⟩))
      simp [List.nodup_append, hnd, hv]
  · subst hl
    refine Or.inr (Or.inr (Or.inl ⟨[v], ?_, List.nodup_singleton v⟩))
    simp [putVerbOnList]

theorem categoryStateOK_exclusive (r : Option ModifierList)
    (h : categoryStateOK r) : listsExclusive r := by
  intro ml hml
  subst hml
  rcases h with h | h | ⟨l, hl, -⟩ | ⟨l, hl⟩
  · exact Option.noConfusion h
  · injection h with h2
    subst h2
    exact Or.inl rfl
  · injection hl with h2
    subst h2
    exact Or.inr rfl
  · injection hl with h2
    subst h2
    exact Or.inl rfl

theorem MissionSpec.handlersOK_updateAgent0 (m : MissionSpec)
    (f : AgentSection → AgentSection)
    (hf : ∀ a : AgentSection,
      (∀ c : Category, categoryStateOK (a.commandHandlers.category c)) →
      ∀ c : Category, categoryStateOK ((f a).commandHandlers.category c))
    (hm : m.handlersOK) : (m.updateAgent0 f).handlersOK := by
  unfold MissionSpec.handlersOK MissionSpec.agent0Handlers MissionSpec.agent0 at *
  cases h : m.agentSections with
  | nil => simpa [MissionSpec.updateAgent0, h] using hm
  | cons a rest =>
    simp only [MissionSpec.updateAgent0, h] at hm ⊢
    simpa using hf a (by simpa using hm)

theorem MissionSpec.applyHandlerOp_handlersOK (m : MissionSpec) (op : HandlerOp)
    (hm : m.handlersOK) : (m.applyHandlerOp op).handlersOK := by
  cases op <;>
    refine MissionSpec.handlersOK_updateAgent0 m _ ?_ hm <;>
    intro a ha c <;> cases c <;>
    simp only [CommandHandlers.category] <;>
    first
      | exact Or.inl rfl
      | exact Or.inr (Or.inl rfl)
      | exact putVerbOnList_stateOK _ _ (ha Category.continuousMovement)
      | exact putVerbOnList_stateOK _ _ (ha Category.discreteMovement)
      | exact putVerbOnList_stateOK _ _ (ha Category.absoluteMovement)
      | exact putVerbOnList_stateOK _ _ (ha Category.inventory)
      | exact ha Category.continuousMovement
      | exact ha Category.discreteMovement
      | exact ha Category.absoluteMovement
      | exact ha Category.inventory
      | exact ha Category.chat

theorem MissionSpec.applyHandlerOps_handlersOK (ops : List HandlerOp) :
    ∀ m : MissionSpec, m.handlersOK → (m.applyHandlerOps ops).handlersOK := by
  induction ops with
  | nil => intro m hm; exact hm
  | cons op rest ih =>
    intro m hm
    exact ih (m.applyHandlerOp op) (m.applyHandlerOp_handlersOK op hm)

theorem MissionSpec.default_handlersOK : MissionSpec.default.handlersOK := by
  intro c
  cases c <;> exact Or.inl rfl

theorem MissionSpec.agent0_updateAgent0 (m : MissionSpec)
    (f : AgentSection → AgentSection) (h : m.agentSections ≠ []) :
    (m.updateAgent0 f).agent0 = f m.agent0 := by
  cases hs : m.agentSections with
  | nil => exact absurd hs h
  | cons a rest => simp [MissionSpec.updateAgent0, MissionSpec.agent0, hs]

/-! ## Claim theorems -/

/-- C1 counterexample: after the single call
`allowAllContinuousMovementCommands()` on a fresh document, agent 0's
continuous-movement record is present with neither an allow-list nor a
deny-list — which is none of the claim's three states (absent,
allow-list-only, deny-list-only). -/
theorem C1_counterexample :
    ¬ categoryStateClaimed
      ((MissionSpec.default.applyHandlerOps
        [HandlerOp.allowAllContinuous]).agent0Handlers.category
          Category.continuousMovement) := by
  have h : (MissionSpec.default.applyHandlerOps
      [HandlerOp.allowAllContinuous]).agent0Handlers.category
        Category.continuousMovement = some ModifierList.empty := rfl
  rw [h]
  rintro (h1 | ⟨l, h2, -⟩ | ⟨l, h3⟩)
  · exact Option.noConfusion h1
  · injection h2 with h4
    exact Option.noConfusion (congrArg ModifierList.allowList h4)
  · injection h3 with h4
    exact Option.noConfusion (congrArg ModifierList.denyList h4)

/-- C1 (amended): after any finite sequence of `allowAllX`, `allowXCommand`,
and `removeAllCommandHandlers` calls starting from a fresh document, every
category record of agent 0 is in exactly one of four states — absent,
no-restriction (present with neither list), allow-list-only with distinct
verbs, or deny-list-only — and in particular the allow-list and deny-list
are never both populated at the same time. -/
theorem C1_handler_state_machine (ops : List HandlerOp) (c : Category) :
    categoryStateOK
      ((MissionSpec.default.applyHandlerOps ops).agent0Handlers.category c) ∧
    listsExclusive
      ((MissionSpec.default.applyHandlerOps ops).agent0Handlers.category c) := by
  have h := MissionSpec.applyHandlerOps_handlersOK ops MissionSpec.default
    MissionSpec.default_handlersOK c
  exact ⟨h, categoryStateOK_exclusive _ h⟩

/-- C2: each per-verb allow operation performs exactly the `putVerbOnList`
transition on agent 0's record for its category: it creates the record if
absent, drops the deny-list entirely regardless of prior state, and appends
the verb to the allow-list only if not already present (set semantics,
insertion order preserved); from a deny-only state the result is allow-only
containing just the verb. -/
theorem C2_allow_command_transition (m : MissionSpec) (v : String)
    (h : m.agentSections ≠ []) :
    ((m.allowContinuousMovementCommand v).agent0Handlers.continuousMovement
        = putVerbOnList m.agent0Handlers.continuousMovement v) ∧
    ((m.allowDiscreteMovementCommand v).agent0Handlers.discreteMovement
        = putVerbOnList m.agent0Handlers.discreteMovement v) ∧
    ((m.allowAbsoluteMovementCommand v).agent0Handlers.absoluteMovement
        = putVerbOnList m.agent0Handlers.absoluteMovement v) ∧
    ((m.allowInventoryCommand v).agent0Handlers.inventory
        = putVerbOnList m.agent0Handlers.inventory v) ∧
    (putVerbOnList none v = some ⟨some [v], none⟩) ∧
    (∀ d : Option (List String),
      putVerbOnList (some ⟨none, d⟩) v = some ⟨some [v], none⟩) ∧
    (∀ (l : List String) (d : Option (List String)), v ∈ l →
      putVerbOnList (some ⟨some l, d⟩) v = some ⟨some l, none⟩) ∧
    (∀ (l : List String) (d : Option (List String)), v ∉ l →
      putVerbOnList (some ⟨some l, d⟩) v = some ⟨some (l ++ [v]), none⟩) ∧
    (∀ r : Option ModifierList,
      putVerbOnList (putVerbOnList r v) v = putVerbOnList r v) ∧
    (∀ l : List String, l.Nodup →
      ∃ l2, putVerbOnList (some ⟨some l, none⟩) v = some ⟨some l2, none⟩ ∧
        l2.count v = 1 ∧ l2.Nodup) := by
  obtain ⟨ab, srv, ags⟩ := m
  cases ags with
  | nil => exact absurd rfl h
  | cons a rest =>
    refine ⟨rfl, rfl, rfl, rfl, ?_, ?_, ?_, ?_, ?_, ?_⟩
    · simp [putVerbOnList, ModifierList.empty]
    · intro d
      simp [putVerbOnList, ModifierList.empty]
    · intro l d hv
      simp [putVerbOnList, hv]
    · intro l d hv
      simp [putVerbOnList, hv]
    · intro r
      rcases r with - | ⟨al, dl⟩
      · simp [putVerbOnList, ModifierList.empty]
      · rcases al with - | l
        · simp [putVerbOnList, ModifierList.empty]
        · by_cases hv : v ∈ l <;> simp [putVerbOnList, hv]
    · intro l hnd
      by_cases hv : v ∈ l
      · exact ⟨l, by simp [putVerbOnList, hv],
          List.count_eq_one_of_mem hnd hv, hnd⟩
      · refine ⟨l ++ [v], by simp [putVerbOnList, hv], ?_, ?_⟩
        · simp [List.count_append, List.count_eq_zero_of_not_mem hv]
        · simp [List.nodup_append, hnd, hv]

/-- C2 witness: the transition theorem applied to the fresh document and the
verb `move`, with the nonempty-agent hypothesis discharged concretely. -/
theorem C2_witness :
    (MissionSpec.default.allowContinuousMovementCommand "move").agent0Handlers.continuousMovement
      = putVerbOnList MissionSpec.default.agent0Handlers.continuousMovement
          "move" :=
  (C2_allow_command_transition MissionSpec.default "move"
    (by simp [MissionSpec.default])).1

/-- C3: each of the five `allowAllXCommands` operations leaves its category
record of agent 0 in the no-restriction state — record present, no
allow-list, no deny-list — whatever the prior state (created if absent,
cleared if a list was populated). -/
theorem C3_allow_all_no_restriction (m : MissionSpec)
    (h : m.agentSections ≠ []) :
    ((m.allowAllContinuousMovementCommands).agent0Handlers.continuousMovement
        = some ModifierList.empty) ∧
    ((m.allowAllDiscreteMovementCommands).agent0Handlers.discreteMovement
        = some ModifierList.empty) ∧
    ((m.allowAllAbsoluteMovementCommands).agent0Handlers.absoluteMovement
        = some ModifierList.empty) ∧
    ((m.allowAllInventoryCommands).agent0Handlers.inventory
        = some ModifierList.empty) ∧
    ((m.allowAllChatCommands).agent0Handlers.chat
        = some ModifierList.empty) := by
  obtain ⟨ab, srv, ags⟩ := m
  cases ags with
  | nil => exact absurd rfl h
  | cons a rest => exact ⟨rfl, rfl, rfl, rfl, rfl⟩

/-- C3 witness: the allow-all theorem applied to the fresh document, with the
nonempty-agent hypothesis discharged concretely. -/
theorem C3_witness :
    MissionSpec.default.allowAllContinuousMovementCommands.agent0Handlers.continuousMovement
      = some ModifierList.empty :=
  (C3_allow_all_no_restriction MissionSpec.default
    (by simp [MissionSpec.default])).1

/-- C5: for every role whose agent has video configured, `getVideoChannels`
returns exactly 4 when depth was requested and exactly 3 otherwise — a pure
function of the depth flag; in particular `requestVideo(320, 240)` on a
fresh document gives `getVideoChannels(0) = 3`. -/
theorem C5_video_channels (m : MissionSpec) (role : Int) (a : AgentSection)
    (v : VideoProducer) (ha : m.getAgent role = Except.ok a)
    (hv : a.videoProducer = some v) :
    m.getVideoChannels role = Except.ok (if v.wantDepth then 4 else 3) ∧
    (MissionSpec.default.requestVideo 320 240).getVideoChannels 0
      = Except.ok 3 := by
  constructor
  · rw [MissionSpec.getVideoChannels, ha]
    simp [Except.bind, hv]
  · rfl

/-- C5 witness: channel count evaluated on the fresh document after
`requestVideo(320, 240)` — no depth, so 3 channels. -/
theorem C5_witness :
    (MissionSpec.default.requestVideo 320 240).getVideoChannels 0
      = Except.ok 3 :=
  (C5_video_channels (MissionSpec.default.requestVideo 320 240) 0
    { AgentSection.default with videoProducer := some ⟨320, 240, false⟩ }
    ⟨320, 240, false⟩ rfl rfl).2

/-- C6: every role-indexed accessor fails with `IndexOutOfRange` exactly when
the role violates `0 ≤ role < getNumberOfAgents()`; in particular
`getVideoWidth(1)` on a single-agent document is `IndexOutOfRange`. -/
theorem C6_index_bounds (m : MissionSpec) (role : Int) :
    (m.isVideoRequested role = Except.error MissionSpecError.indexOutOfRange ↔
      ¬(0 ≤ role ∧ role < m.getNumberOfAgents)) ∧
    (m.getVideoWidth role = Except.error MissionSpecError.indexOutOfRange ↔
      ¬(0 ≤ role ∧ role < m.getNumberOfAgents)) ∧
    (m.getVideoHeight role = Except.error MissionSpecError.indexOutOfRange ↔
      ¬(0 ≤ role ∧ role < m.getNumberOfAgents)) ∧
    (m.getVideoChannels role = Except.error MissionSpecError.indexOutOfRange ↔
      ¬(0 ≤ role ∧ role < m.getNumberOfAgents)) ∧
    (m.getNumberOfAgents = 1 →
      m.getVideoWidth 1 = Except.error MissionSpecError.indexOutOfRange) := by
  have hbound : ∀ role' : Int,
      ¬(0 ≤ role' ∧ role' < m.getNumberOfAgents) →
      m.getAgent role' = Except.error MissionSpecError.indexOutOfRange := by
    intro role' hbad
    simp only [MissionSpec.getNumberOfAgents] at hbad
    simp only [MissionSpec.getAgent]
    rw [dif_neg hbad]
  have hrole1 : m.getNumberOfAgents = 1 →
      m.getVideoWidth 1 = Except.error MissionSpecError.indexOutOfRange := by
    intro h1
    have hbad : ¬((0 : Int) ≤ 1 ∧ (1 : Int) < m.getNumberOfAgents) := by omega
    rw [MissionSpec.getVideoWidth, hbound 1 hbad]
    rfl
  by_cases hc : 0 ≤ role ∧ role < m.getNumberOfAgents
  · have hlen : role.toNat < m.agentSections.length := by
      simp only [MissionSpec.getNumberOfAgents] at hc
      omega
    have ha : m.getAgent role = Except.ok m.agentSections[role.toNat] := by
      simp only [MissionSpec.getNumberOfAgents] at hc
      simp only [MissionSpec.getAgent]
      rw [dif_pos hc]
      rfl
    refine ⟨?_, ?_, ?_, ?_, hrole1⟩
    · rw [MissionSpec.isVideoRequested, ha]
      simp [Except.map, hc]
    · rw [MissionSpec.getVideoWidth, ha]
      rcases hvp : m.agentSections[role.toNat].videoProducer with - | v <;>
        simp [Except.bind, hvp, hc]
    · rw [MissionSpec.getVideoHeight, ha]
      rcases hvp : m.agentSections[role.toNat].videoProducer with - | v <;>
        simp [Except.bind, hvp, hc]
    · rw [MissionSpec.getVideoChannels, ha]
      rcases hvp : m.agentSections[role.toNat].videoProducer with - | v <;>
        simp [Except.bind, hvp, hc]
  · refine ⟨?_, ?_, ?_, ?_, hrole1⟩
    · rw [MissionSpec.isVideoRequested, hbound role hc]
      simp [Except.map, hc]
    · rw [MissionSpec.getVideoWidth, hbound role hc]
      simp [Except.bind, hc]
    · rw [MissionSpec.getVideoHeight, hbound role hc]
      simp [Except.bind, hc]
    · rw [MissionSpec.getVideoChannels, hbound role hc]
      simp [Except.bind, hc]

/-- C6 witness: `getVideoWidth(1)` on the fresh single-agent document fails
with `IndexOutOfRange`, the single-agent hypothesis discharged concretely. -/
theorem C6_witness :
    MissionSpec.default.getVideoWidth 1
      = Except.error MissionSpecError.indexOutOfRange :=
  (C6_index_bounds MissionSpec.default 1).2.2.2.2 rfl

/-- C7: the default constructor yields a flat world, a 10-second time limit,
exactly one agent in survival mode, no observation requests, no video, and
no command-handler category configured; hence `getNumberOfAgents() = 1` and
`isVideoRequested(0)` is false. -/
theorem C7_default_document :
    MissionSpec.default.server.worldGenerator = WorldGenerator.flatWorld ∧
    MissionSpec.default.server.timeLimitSeconds = some 10 ∧
    MissionSpec.default.getNumberOfAgents = 1 ∧
    MissionSpec.default.agent0.mode = GameMode.survival ∧
    MissionSpec.default.agent0.observationRequests = [] ∧
    MissionSpec.default.agent0.videoProducer = none ∧
    (∀ c : Category, MissionSpec.default.agent0Handlers.category c = none) ∧
    MissionSpec.default.isVideoRequested 0 = Except.ok false := by
  refine ⟨rfl, rfl, rfl, rfl, rfl, rfl, ?_, ?_⟩
  · intro c
    cases c <;> rfl
  · rfl

/-- C8: `startAt` overwrites any previous start position (so at most one is
ever held), while `endAt` appends one end position per call, preserving call
order with no de-duplication; `endAt(1,2,3)` then `endAt(4,5,6)` yields
exactly those two end positions in that literal order. -/
theorem C8_start_end_positions (m : MissionSpec) (h : m.agentSections ≠ [])
    (x1 y1 z1 x2 y2 z2 : Int) :
    ((m.startAt x1 y1 z1).startAt x2 y2 z2 = m.startAt x2 y2 z2) ∧
    ((m.startAt x1 y1 z1).agent0.startPosition = some ⟨x1, y1, z1⟩) ∧
    (((m.endAt x1 y1 z1).endAt x2 y2 z2).agent0.endPositions
      = m.agent0.endPositions ++ [⟨x1, y1, z1⟩, ⟨x2, y2, z2⟩]) ∧
    (((MissionSpec.default.endAt 1 2 3).endAt 4 5 6).agent0.endPositions
      = [⟨1, 2, 3⟩, ⟨4, 5, 6⟩]) := by
  obtain ⟨ab, srv, ags⟩ := m
  cases ags with
  | nil => exact absurd rfl h
  | cons a rest =>
    refine ⟨rfl, rfl, ?_, rfl⟩
    simp [MissionSpec.endAt, MissionSpec.updateAgent0, MissionSpec.agent0]

/-- C8 witness: the start/end theorem applied to the fresh document at
concrete coordinates, the nonempty-agent hypothesis discharged concretely. -/
theorem C8_witness :
    ((MissionSpec.default.endAt 1 2 3).endAt 4 5 6).agent0.endPositions
      = [⟨1, 2, 3⟩, ⟨4, 5, 6⟩] :=
  (C8_start_end_positions MissionSpec.default (by simp [MissionSpec.default])
    1 2 3 4 5 6).2.2.2

/-- C9: `timeLimitInSeconds` and `setTimeOfDay` are total and store their
arguments verbatim — negative or zero time limits pass through unmodified,
and the time-of-day tick is not clamped to `[0, 24000)` for any integer. -/
theorem C9_verbatim_settings (m : MissionSpec) (s : Rat) (t : Int)
    (pass : Bool) :
    ((m.timeLimitInSeconds s).server.timeLimitSeconds = some s) ∧
    ((m.setTimeOfDay t pass).server.timeOfDay = some ⟨t, pass⟩) ∧
    ((MissionSpec.default.timeLimitInSeconds (-5)).server.timeLimitSeconds
      = some (-5)) ∧
    ((MissionSpec.default.timeLimitInSeconds 0).server.timeLimitSeconds
      = some 0) ∧
    ((MissionSpec.default.setTimeOfDay 99999 false).server.timeOfDay
      = some ⟨99999, false⟩) ∧
    ((MissionSpec.default.setTimeOfDay (-1) true).server.timeOfDay
      = some ⟨-1, true⟩) :=
  ⟨rfl, rfl, rfl, rfl, rfl, rfl⟩

/-- C10: the four per-verb allow operations are all instances of the single
transition `putVerbOnList` applied to their respective category record: each
equals the generic `allowCommandInCategory` at its category. -/
theorem C10_put_verb_uniform (m : MissionSpec) (v : String) :
    m.allowContinuousMovementCommand v
        = m.allowCommandInCategory Category.continuousMovement v ∧
    m.allowDiscreteMovementCommand v
        = m.allowCommandInCategory Category.discreteMovement v ∧
    m.allowAbsoluteMovementCommand v
        = m.allowCommandInCategory Category.absoluteMovement v ∧
    m.allowInventoryCommand v
        = m.allowCommandInCategory Category.inventory v := by
  obtain ⟨ab, srv, ags⟩ := m
  cases ags with
  | nil => exact ⟨rfl, rfl, rfl, rfl⟩
  | cons a rest => exact ⟨rfl, rfl, rfl, rfl⟩

/-! ## XML serialization and parsing

Modelled from the spec: the serialization collaborator (the generated XML
binding) is not part of the source tree, so the document/text contract of
spec sections 4.1 and 6 is modelled as an XML element tree with typed
attribute values, a structural serializer `missionToXml`, a parser
`parseMission` (the validated-parse path: it returns `none` on any tree that
does not conform to the expected shape), and a token renderer where
pretty-printing inserts only whitespace tokens. -/

/-- A typed XML attribute value (the textual encoding of numbers and flags is
the binding collaborator's concern). -/
inductive AttrValue where
  | intVal (i : Int)
  | ratVal (q : Rat)
  | boolVal (b : Bool)
  | strVal (s : String)

/-- An XML element tree: name, attributes, child elements. -/
inductive Xml where
  | elem (name : String) (attrs : List (String × AttrValue)) (children : List Xml)

/-- Encode an optional field as zero-or-one child elements. -/
def optChildren {α : Type} (f : α → Xml) : Option α → List Xml
  | none => []
  | some a => [f a]

/-- Decode an optional field from zero-or-one child elements. -/
def parseOptChild {α : Type} (f : Xml → Option α) : List Xml → Option (Option α)
  | [] => some none
  | [x] => (f x).map some
  | _ :: _ :: _ => none

/-- Decode a sequence field: every child must decode. -/
def parseSeq {α : Type} (f : Xml → Option α) : List Xml → Option (List α)
  | [] => some []
  | x :: xs =>
    match f x, parseSeq f xs with
    | some a, some as => some (a :: as)
    | _, _ => none

theorem parseOptChild_optChildren {α : Type} (f : Xml → Option α) (g : α → Xml)
    (h : ∀ a, f (g a) = some a) (o : Option α) :
    parseOptChild f (optChildren g o) = some o := by
  cases o <;> simp [optChildren, parseOptChild, h]

theorem parseSeq_map {α : Type} (f : Xml → Option α) (g : α → Xml)
    (h : ∀ a, f (g a) = some a) (l : List α) :
    parseSeq f (l.map g) = some l := by
  induction l with
  | nil => rfl
  | cons a as ih => simp [parseSeq, h, ih]

def worldGeneratorToXml : WorldGenerator → Xml
  | .flatWorld => .elem "FlatWorldGenerator" [] []
  | .defaultWorld => .elem "DefaultWorldGenerator" [] []

def parseWorldGenerator : Xml → Option WorldGenerator
  | .elem "FlatWorldGenerator" [] [] => some .flatWorld
  | .elem "DefaultWorldGenerator" [] [] => some .defaultWorld
  | _ => none

theorem parseWorldGenerator_roundtrip (w : WorldGenerator) :
    parseWorldGenerator (worldGeneratorToXml w) = some w := by
  cases w <;> rfl

def timeOfDayToXml (t : TimeOfDaySetting) : Xml :=
  .elem "Time"
    [("StartTime", .intVal t.startTime),
     ("AllowPassageOfTime", .boolVal t.allowPassage)] []

def parseTimeOfDay : Xml → Option TimeOfDaySetting
  | .elem "Time"
      [("StartTime", .intVal t), ("AllowPassageOfTime", .boolVal b)] [] =>
    some ⟨t, b⟩
  | _ => none

theorem parseTimeOfDay_roundtrip (t : TimeOfDaySetting) :
    parseTimeOfDay (timeOfDayToXml t) = some t := rfl

def timeLimitToXml (q : Rat) : Xml :=
  .elem "ServerQuitFromTimeUp" [("timeLimitSeconds", .ratVal q)] []

def parseTimeLimit : Xml → Option Rat
  | .elem "ServerQuitFromTimeUp" [("timeLimitSeconds", .ratVal q)] [] => some q
  | _ => none

theorem parseTimeLimit_roundtrip (q : Rat) :
    parseTimeLimit (timeLimitToXml q) = some q := rfl

def drawDirectiveToXml : DrawDirective → Xml
  | .drawBlock x y z ty =>
    .elem "DrawBlock"
      [("x", .intVal x), ("y", .intVal y), ("z", .intVal z),
       ("type", .strVal ty)] []
  | .drawCuboid x1 y1 z1 x2 y2 z2 ty =>
    .elem "DrawCuboid"
      [("x1", .intVal x1), ("y1", .intVal y1), ("z1", .intVal z1),
       ("x2", .intVal x2), ("y2", .intVal y2), ("z2", .intVal z2),
       ("type", .strVal ty)] []
  | .drawItem x y z ty =>
    .elem "DrawItem"
      [("x", .intVal x), ("y", .intVal y), ("z", .intVal z),
       ("type", .strVal ty)] []
  | .drawSphere x y z r ty =>
    .elem "DrawSphere"
      [("x", .intVal x), ("y", .intVal y), ("z", .intVal z),
       ("radius", .intVal r), ("type", .strVal ty)] []
  | .drawLine x1 y1 z1 x2 y2 z2 ty =>
    .elem "DrawLine"
      [("x1", .intVal x1), ("y1", .intVal y1), ("z1", .intVal z1),
       ("x2", .intVal x2), ("y2", .intVal y2), ("z2", .intVal z2),
       ("type", .strVal ty)] []

def parseDrawDirective : Xml → Option DrawDirective
  | .elem "DrawBlock"
      [("x", .intVal x), ("y", .intVal y), ("z", .intVal z),
       ("type", .strVal ty)] [] =>
    some (.drawBlock x y z ty)
  | .elem "DrawCuboid"
      [("x1", .intVal x1), ("y1", .intVal y1), ("z1", .intVal z1),
       ("x2", .intVal x2), ("y2", .intVal y2), ("z2", .intVal z2),
       ("type", .strVal ty)] [] =>
    some (.drawCuboid x1 y1 z1 x2 y2 z2 ty)
  | .elem "DrawItem"
      [("x", .intVal x), ("y", .intVal y), ("z", .intVal z),
       ("type", .strVal ty)] [] =>
    some (.drawItem x y z ty)
  | .elem "DrawSphere"
      [("x", .intVal x), ("y", .intVal y), ("z", .intVal z),
       ("radius", .intVal r), ("type", .strVal ty)] [] =>
    some (.drawSphere x y z r ty)
  | .elem "DrawLine"
      [("x1", .intVal x1), ("y1", .intVal y1), ("z1", .intVal z1),
       ("x2", .intVal x2), ("y2", .intVal y2), ("z2", .intVal z2),
       ("type", .strVal ty)] [] =>
    some (.drawLine x1 y1 z1 x2 y2 z2 ty)
  | _ => none

theorem parseDrawDirective_roundtrip (d : DrawDirective) :
    parseDrawDirective (drawDirectiveToXml d) = some d := by
  cases d <;> rfl

def serverSectionToXml (s : ServerSection) : Xml :=
  .elem "ServerHandlers" []
    [worldGeneratorToXml s.worldGenerator,
     .elem "ServerInitialConditions" [] (optChildren timeOfDayToXml s.timeOfDay),
     .elem "DrawingDecorator" []
       (s.drawingDecorators.map drawDirectiveToXml),
     .elem "TimeUpSection" [] (optChildren timeLimitToXml s.timeLimitSeconds)]

def parseServerSection : Xml → Option ServerSection
  | .elem "ServerHandlers" []
      [wg, .elem "ServerInitialConditions" [] tods,
       .elem "DrawingDecorator" [] ds, .elem "TimeUpSection" [] tls] =>
    match parseWorldGenerator wg, parseOptChild parseTimeOfDay tods,
        parseSeq parseDrawDirective ds, parseOptChild parseTimeLimit tls with
    | some w, some tod, some draws, some tl => some ⟨w, tod, draws, tl⟩
    | _, _, _, _ => none
  | _ => none

theorem parseServerSection_roundtrip (s : ServerSection) :
    parseServerSection (serverSectionToXml s) = some s := by
  simp [serverSectionToXml, parseServerSection,
    parseWorldGenerator_roundtrip,
    parseOptChild_optChildren parseTimeOfDay timeOfDayToXml
      parseTimeOfDay_roundtrip,
    parseSeq_map parseDrawDirective drawDirectiveToXml
      parseDrawDirective_roundtrip,
    parseOptChild_optChildren parseTimeLimit timeLimitToXml
      parseTimeLimit_roundtrip]

def gameModeString : GameMode → String
  | .survival => "Survival"
  | .creative => "Creative"
  | .spectator => "Spectator"

def parseGameMode : String → Option GameMode
  | "Survival" => some .survival
  | "Creative" => some .creative
  | "Spectator" => some .spectator
  | _ => none

theorem parseGameMode_roundtrip (g : GameMode) :
    parseGameMode (gameModeString g) = some g := by
  cases g <;> rfl

def posToXml (name : String) (p : Pos) : Xml :=
  .elem name [("x", .intVal p.x), ("y", .intVal p.y), ("z", .intVal p.z)] []

def parsePos (name : String) : Xml → Option Pos
  | .elem n [("x", .intVal x), ("y", .intVal y), ("z", .intVal z)] [] =>
    if n = name then some ⟨x, y, z⟩ else none
  | _ => none

theorem parsePos_roundtrip (name : String) (p : Pos) :
    parsePos name (posToXml name p) = some p := by
  simp [posToXml, parsePos]

def videoProducerToXml (v : VideoProducer) : Xml :=
  .elem "VideoProducer"
    [("width", .intVal v.width), ("height", .intVal v.height),
     ("wantDepth", .boolVal v.wantDepth)] []

def parseVideoProducer : Xml → Option VideoProducer
  | .elem "VideoProducer"
      [("width", .intVal w), ("height", .intVal h),
       ("wantDepth", .boolVal d)] [] =>
    some ⟨w, h, d⟩
  | _ => none

theorem parseVideoProducer_roundtrip (v : VideoProducer) :
    parseVideoProducer (videoProducerToXml v) = some v := rfl

def rewardToXml (r : RewardForReachingPosition) : Xml :=
  .elem "Marker"
    [("x", .intVal r.pos.x), ("y", .intVal r.pos.y), ("z", .intVal r.pos.z),
     ("reward", .ratVal r.amount), ("tolerance", .ratVal r.tolerance)] []

def parseReward : Xml → Option RewardForReachingPosition
  | .elem "Marker"
      [("x", .intVal x), ("y", .intVal y), ("z", .intVal z),
       ("reward", .ratVal amt), ("tolerance", .ratVal tol)] [] =>
    some ⟨⟨x, y, z⟩, amt, tol⟩
  | _ => none

theorem parseReward_roundtrip (r : RewardForReachingPosition) :
    parseReward (rewardToXml r) = some r := rfl

def observationToXml : ObservationRequest → Xml
  | .recentCommands => .elem "ObservationFromRecentCommands" [] []
  | .hotBar => .elem "ObservationFromHotBar" [] []
  | .fullInventory => .elem "ObservationFromFullInventory" [] []
  | .grid x1 y1 z1 x2 y2 z2 label =>
    .elem "ObservationFromGrid"
      [("x1", .intVal x1), ("y1", .intVal y1), ("z1", .intVal z1),
       ("x2", .intVal x2), ("y2", .intVal y2), ("z2", .intVal z2),
       ("name", .strVal label)] []
  | .distance p label =>
    .elem "ObservationFromDistance"
      [("x", .intVal p.x), ("y", .intVal p.y), ("z", .intVal p.z),
       ("name", .strVal label)] []
  | .chat => .elem "ObservationFromChat" [] []

def parseObservation : Xml → Option ObservationRequest
  | .elem "ObservationFromRecentCommands" [] [] => some .recentCommands
  | .elem "ObservationFromHotBar" [] [] => some .hotBar
  | .elem "ObservationFromFullInventory" [] [] => some .fullInventory
  | .elem "ObservationFromGrid"
      [("x1", .intVal x1), ("y1", .intVal y1), ("z1", .intVal z1),
       ("x2", .intVal x2), ("y2", .intVal y2), ("z2", .intVal z2),
       ("name", .strVal label)] [] =>
    some (.grid x1 y1 z1 x2 y2 z2 label)
  | .elem "ObservationFromDistance"
      [("x", .intVal x), ("y", .intVal y), ("z", .intVal z),
       ("name", .strVal label)] [] =>
    some (.distance ⟨x, y, z⟩ label)
  | .elem "ObservationFromChat" [] [] => some .chat
  | _ => none

theorem parseObservation_roundtrip (o : ObservationRequest) :
    parseObservation (observationToXml o) = some o := by
  cases o <;> rfl

def verbToXml (v : String) : Xml := .elem "command" [("verb", .strVal v)] []

def parseVerb : Xml → Option String
  | .elem "command" [("verb", .strVal v)] [] => some v
  | _ => none

theorem parseVerb_roundtrip (v : String) : parseVerb (verbToXml v) = some v := rfl

def verbsToXml (l : List String) : Xml := .elem "commands" [] (l.map verbToXml)

def parseVerbs : Xml → Option (List String)
  | .elem "commands" [] cs => parseSeq parseVerb cs
  | _ => none

theorem parseVerbs_roundtrip (l : List String) :
    parseVerbs (verbsToXml l) = some l := by
  simp [verbsToXml, parseVerbs, parseSeq_map parseVerb verbToXml parseVerb_roundtrip]

def modifierListToXml (ml : ModifierList) : Xml :=
  .elem "ModifierList" []
    [.elem "AllowList" [] (optChildren verbsToXml ml.allowList),
     .elem "DenyList" [] (optChildren verbsToXml ml.denyList)]

def parseModifierList : Xml → Option ModifierList
  | .elem "ModifierList" []
      [.elem "AllowList" [] als, .elem "DenyList" [] dls] =>
    match parseOptChild parseVerbs als, parseOptChild parseVerbs dls with
    | some al, some dl => some ⟨al, dl⟩
    | _, _ => none
  | _ => none

theorem parseModifierList_roundtrip (ml : ModifierList) :
    parseModifierList (modifierListToXml ml) = some ml := by
  simp [modifierListToXml, parseModifierList,
    parseOptChild_optChildren parseVerbs verbsToXml parseVerbs_roundtrip]

def categoryToXml (name : String) (r : Option ModifierList) : Xml :=
  .elem name [] (optChildren modifierListToXml r)

def parseCategory (name : String) : Xml → Option (Option ModifierList)
  | .elem n [] cs =>
    if n = name then parseOptChild parseModifierList cs else none
  | _ => none

theorem parseCategory_roundtrip (name : String) (r : Option ModifierList) :
    parseCategory name (categoryToXml name r) = some r := by
  simp [categoryToXml, parseCategory,
    parseOptChild_optChildren parseModifierList modifierListToXml
      parseModifierList_roundtrip]

def commandHandlersToXml (ch : CommandHandlers) : Xml :=
  .elem "AgentHandlers" []
    [categoryToXml "ContinuousMovementCommands" ch.continuousMovement,
     categoryToXml "DiscreteMovementCommands" ch.discreteMovement,
     categoryToXml "AbsoluteMovementCommands" ch.absoluteMovement,
     categoryToXml "InventoryCommands" ch.inventory,
     categoryToXml "ChatCommands" ch.chat]

def parseCommandHandlers : Xml → Option CommandHandlers
  | .elem "AgentHandlers" [] [c1, c2, c3, c4, c5] =>
    match parseCategory "ContinuousMovementCommands" c1,
        parseCategory "DiscreteMovementCommands" c2,
        parseCategory "AbsoluteMovementCommands" c3,
        parseCategory "InventoryCommands" c4,
        parseCategory "ChatCommands" c5 with
    | some r1, some r2, some r3, some r4, some r5 =>
      some ⟨r1, r2, r3, r4, r5⟩
    | _, _, _, _, _ => none
  | _ => none

theorem parseCommandHandlers_roundtrip (ch : CommandHandlers) :
    parseCommandHandlers (commandHandlersToXml ch) = some ch := by
  simp [commandHandlersToXml, parseCommandHandlers, parseCategory_roundtrip]

def agentSectionToXml (a : AgentSection) : Xml :=
  .elem "AgentSection" [("mode", .strVal (gameModeString a.mode))]
    [.elem "AgentStart" [] (optChildren (posToXml "Placement") a.startPosition),
     .elem "EndPositions" [] (a.endPositions.map (posToXml "Marker")),
     .elem "VideoSection" [] (optChildren videoProducerToXml a.videoProducer),
     .elem "RewardForReachingPosition" [] (a.rewardProducers.map rewardToXml),
     .elem "Observations" [] (a.observationRequests.map observationToXml),
     commandHandlersToXml a.commandHandlers]

def parseAgentSection : Xml → Option AgentSection
  | .elem "AgentSection" [("mode", .strVal ms)]
      [.elem "AgentStart" [] sps, .elem "EndPositions" [] eps,
       .elem "VideoSection" [] vps,
       .elem "RewardForReachingPosition" [] rws,
       .elem "Observations" [] obs, chx] =>
    match parseGameMode ms, parseOptChild (parsePos "Placement") sps,
        parseSeq (parsePos "Marker") eps, parseOptChild parseVideoProducer vps,
        parseSeq parseReward rws, parseSeq parseObservation obs,
        parseCommandHandlers chx with
    | some mo, some sp, some ep, some vp, some rw, some ob, some ch =>
      some ⟨mo, sp, ep, vp, rw, ob, ch⟩
    | _, _, _, _, _, _, _ => none
  | _ => none

theorem parseAgentSection_roundtrip (a : AgentSection) :
    parseAgentSection (agentSectionToXml a) = some a := by
  simp [agentSectionToXml, parseAgentSection, parseGameMode_roundtrip,
    parseOptChild_optChildren (parsePos "Placement") (posToXml "Placement")
      (parsePos_roundtrip "Placement"),
    parseSeq_map (parsePos "Marker") (posToXml "Marker")
      (parsePos_roundtrip "Marker"),
    parseOptChild_optChildren parseVideoProducer videoProducerToXml
      parseVideoProducer_roundtrip,
    parseSeq_map parseReward rewardToXml parseReward_roundtrip,
    parseSeq_map parseObservation observationToXml parseObservation_roundtrip,
    parseCommandHandlers_roundtrip]

/-- Modelled from the spec: the serializer producing the full document tree
(`getAsXML` renders this tree to text). -/
def missionToXml (m : MissionSpec) : Xml :=
  .elem "Mission" [("about", .strVal m.about)]
    (serverSectionToXml m.server :: m.agentSections.map agentSectionToXml)

/-- Modelled from the spec: the validated parse of a mission document tree —
`none` exactly when the tree does not conform to the expected shape
(`createFromText(text, true)` raising a schema violation). -/
def parseMission : Xml → Option MissionSpec
  | .elem "Mission" [("about", .strVal ab)] (sx :: axs) =>
    match parseServerSection sx, parseSeq parseAgentSection axs with
    | some srv, some ags => some ⟨ab, srv, ags⟩
    | _, _ => none
  | _ => none

theorem parseMission_roundtrip (m : MissionSpec) :
    parseMission (missionToXml m) = some m := by
  simp [missionToXml, parseMission, parseServerSection_roundtrip,
    parseSeq_map parseAgentSection agentSectionToXml parseAgentSection_roundtrip]

/-! ## Rendering to text: pretty-printing inserts only whitespace -/

/-- One piece of rendered output: markup content, or insignificant whitespace
inserted by pretty-printing. -/
inductive Token where
  | content (s : String)
  | ws (s : String)

/-- The text of a token (the rendered string is the concatenation). -/
def Token.text : Token → String
  | .content s => s
  | .ws s => s

/-- The markup content of a token stream, whitespace dropped. -/
def contentOf (ts : List Token) : List String :=
  ts.filterMap fun t =>
    match t with
    | .content s => some s
    | .ws _ => none

/-- The textual form of one attribute value. -/
def AttrValue.text : AttrValue → String
  | .intVal i => toString i
  | .ratVal q => toString q.num ++ "/" ++ toString q.den
  | .boolVal b => cond b "true" "false"
  | .strVal s => s

/-- The textual form of one attribute. -/
def attrText (a : String × AttrValue) : String :=
  " " ++ a.1 ++ "=" ++ a.2.text

/-- The opening tag of an element. -/
def openTag (name : String) (attrs : List (String × AttrValue)) : String :=
  "<" ++ name ++ String.join (attrs.map attrText) ++ ">"

/-- The closing tag of an element. -/
def closeTag (name : String) : String :=
  "</" ++ name ++ ">"

/-- The whitespace token pretty-printing inserts before a tag at the given
nesting depth: a newline and two spaces per level. -/
def indentWs (depth : Nat) : Token :=
  .ws ("\n" ++ String.join (List.replicate depth "  "))

mutual

/-- Render one element to tokens; when `pretty` is true, an indentation
whitespace token is inserted before the opening and the closing tag. -/
def renderXml (pretty : Bool) (depth : Nat) : Xml → List Token
  | .elem name attrs children =>
    (cond pretty [indentWs depth] [])
      ++ [Token.content (openTag name attrs)]
      ++ renderXmlSeq pretty (depth + 1) children
      ++ (cond pretty [indentWs depth] [])
      ++ [Token.content (closeTag name)]

/-- Render a list of elements to tokens, in order. -/
def renderXmlSeq (pretty : Bool) (depth : Nat) : List Xml → List Token
  | [] => []
  | x :: xs => renderXml pretty depth x ++ renderXmlSeq pretty depth xs

end

/-- Modelled from the spec: `getAsXML(prettyPrint)` — the document tree
rendered to text, compact or indented. -/
def MissionSpec.getAsXML (m : MissionSpec) (prettyPrint : Bool) : String :=
  String.join ((renderXml prettyPrint 0 (missionToXml m)).map Token.text)

mutual

/-- The markup content of a rendered element does not depend on the
pretty-print flag or the nesting depth. -/
theorem contentOf_renderXml (p1 p2 : Bool) (d1 d2 : Nat) (x : Xml) :
    contentOf (renderXml p1 d1 x) = contentOf (renderXml p2 d2 x) := by
  cases x with
  | elem name attrs children =>
    have ih := contentOf_renderXmlSeq p1 p2 (d1 + 1) (d2 + 1) children
    cases p1 <;> cases p2 <;>
      simp only [renderXml, cond, contentOf, List.filterMap_append,
        List.filterMap_cons, List.filterMap_nil, indentWs] at ih ⊢ <;>
      rw [ih]

/-- The markup content of a rendered element list does not depend on the
pretty-print flag or the nesting depth. -/
theorem contentOf_renderXmlSeq (p1 p2 : Bool) (d1 d2 : Nat) (xs : List Xml) :
    contentOf (renderXmlSeq p1 d1 xs) = contentOf (renderXmlSeq p2 d2 xs) := by
  cases xs with
  | nil => rfl
  | cons x xs =>
    have ih1 := contentOf_renderXml p1 p2 d1 d2 x
    have ih2 := contentOf_renderXmlSeq p1 p2 d1 d2 xs
    simp only [renderXmlSeq, contentOf, List.filterMap_append] at ih1 ih2 ⊢
    rw [ih1, ih2]

end

/-- C4: for every document built in the model and both pretty-print values,
the validated parse of the serialized tree returns the document unchanged on
every field, and pretty-printing changes only whitespace: the markup content
of the rendered text is identical for both flags. -/
theorem C4_xml_roundtrip (d : MissionSpec) (pretty1 pretty2 : Bool) :
    parseMission (missionToXml d) = some d ∧
    contentOf (renderXml pretty1 0 (missionToXml d))
      = contentOf (renderXml pretty2 0 (missionToXml d)) :=
  ⟨parseMission_roundtrip d, contentOf_renderXml pretty1 pretty2 0 0 (missionToXml d)⟩

end Malmo
